import Mathlib

/-!
Verification development for the `intent-classifier` repository
(`src/classifier.js`, class `IntentClassifier`).

Shallow embedding conventions:
* JS numbers are modelled as real numbers `ℝ`; a JS `NaN` outcome of
  `cosineSimilarity` (reading past the end of the second vector, or a
  zero-norm vector, both of which make the JS loop produce `NaN`) is
  modelled as `Option.none`, and the JS comparisons `NaN > x` /
  `NaN >= x` / `NaN < x` (all false) are reflected by the `match`
  arms that keep the accumulator / take the false branch on `none`.
* The external collaborators (the OpenAI chat validator, the OpenAI
  embedding endpoint, and the `natural` TfIdf vectorizer, none of which
  are part of this repository) are modelled as an `Oracles` bundle of
  deterministic functions; fallible remote calls return `Except`.
* `Number.prototype.toFixed(2)` is modelled as an abstract formatting
  function `fmt : ℝ → String`; the code only ever appends `"%"` to it.
* External calls actually issued are recorded in an `ExtCall` event list.
* `fs` persistence is outside the model: the in-memory `embeddings`
  array is the vector store's contents.
-/

/-- An entry of the labelled dataset (`{text, intent}` in the JS source). -/
structure DataExample where
  text : String
  intent : String
  deriving DecidableEq, BEq

/-- An entry of `embeddings.json` / `this.embeddings`
(`{text, intent, vector}` in the JS source). -/
structure EmbeddingRecord where
  text : String
  intent : String
  vector : List ℝ

/-- The `{intent, confidence}` object returned by the classify methods. -/
structure ClassificationResult where
  intent : String
  confidence : String
  deriving DecidableEq, BEq

/-- Error kinds surfaced to callers: the `throw new Error("Both text and
intent are required.")` of `addIntent`, and provider/transport failures
rethrown by `getBatchEmbeddings`. -/
inductive ErrKind where
  | invalidArgument
  | providerError
  deriving DecidableEq, BEq

/-- A record of one external (OpenAI) call actually issued: a chat-completion
validation of a query, or an embeddings request for a batch of texts. -/
inductive ExtCall where
  | validate (query : String)
  | embed (texts : List String)
  deriving DecidableEq, BEq

/-- The external collaborators, modelled as deterministic functions:
`validator` is the chat-completion used by `isValidQueryOpenAI` (returns the
raw message content, or a transport error); `provider` is
`openai.embeddings.create` (vectors for a batch of texts, or an error);
`vecOf` is the `natural` TfIdf vectorization `tfidf.tfidfs(text, cb)`,
mapping the current document corpus and a text to a weight vector. -/
structure Oracles where
  validator : String → Except Unit String
  provider : List String → Except Unit (List (List ℝ))
  vecOf : List String → String → List ℝ

/-- The mutable instance state of `IntentClassifier`. -/
structure ClassifierState where
  useOpenAI : Bool
  threshold : ℝ
  batchSize : ℕ
  cache : List (String × ClassificationResult)
  dataset : List DataExample
  embeddings : List EmbeddingRecord
  tfidfDocs : List String

/-- Constructor configuration (`config` object); `none` models a field that
is `undefined` in JS. -/
structure ClassifierConfig where
  useOpenAI : Option Bool
  threshold : Option ℝ
  batchSize : Option ℕ
  dataset : Option (List DataExample)

/-- `this.cache.get(query)` preceded by `this.cache.has(query)`:
first-match lookup in the association list modelling the `Map`. -/
def cacheGet : List (String × ClassificationResult) → String → Option ClassificationResult
  | [], _ => none
  | (k, v) :: rest, q => if k = q then some v else cacheGet rest q

/-- `this.cache.set(query, result)`: overwrite-or-insert for the `Map`. -/
def cacheSet (cache : List (String × ClassificationResult)) (q : String)
    (r : ClassificationResult) : List (String × ClassificationResult) :=
  (q, r) :: cache.filter fun p => p.1 != q

/-- The vowels matched by the JS regex `/[aeiou]/i`. -/
def vowels : List Char := ['a', 'e', 'i', 'o', 'u', 'A', 'E', 'I', 'O', 'U']

/-- `/[aeiou]/i.test(query)`. -/
def hasVowel (q : String) : Bool := q.data.any fun c => vowels.contains c

/-- JS `\w` word characters `[A-Za-z0-9_]`. -/
def isWordChar (c : Char) : Bool := c.isAlphanum || c == '_'

/-- Maximal runs of word characters of a character list: the token list
produced by `str.split(/\W+/).filter(Boolean)`. The second argument
accumulates the (reversed) current run. -/
def tokensAux : List Char → List Char → List String
  | [], acc => if acc.isEmpty then [] else [String.mk acc.reverse]
  | c :: cs, acc =>
    if isWordChar c then tokensAux cs (c :: acc)
    else if acc.isEmpty then tokensAux cs [] else String.mk acc.reverse :: tokensAux cs []

/-- `new Set(text.toLowerCase().split(/\W+/).filter(Boolean))`. -/
def tokenSet (s : String) : Finset String :=
  (tokensAux (s.data.map Char.toLower) []).toFinset

/-- The Jaccard computation of `classifyWithOpenAI`:
`union.size > 0 ? intersection.size / union.size : 0`. -/
def jaccard (A B : Finset String) : ℚ :=
  if 0 < (A ∪ B).card then ((A ∩ B).card : ℚ) / ((A ∪ B).card : ℚ) else 0

/-- `str.trim().toLowerCase()` applied to the validator's message content
(lower-casing and trimming commute, so lower-casing first is equivalent). -/
def trimLower (s : String) : String :=
  String.mk ((((s.data.map Char.toLower).dropWhile Char.isWhitespace).reverse.dropWhile
    Char.isWhitespace).reverse)

/-- `cosineSimilarity(vecA, vecB)` from the JS source. The loop runs over
`vecA`'s indices; if `vecB` is shorter the JS code reads `undefined` and the
result is `NaN`, and if either accumulated norm is zero the division is
`0/0 = NaN`; both `NaN` outcomes are modelled as `none`. -/
noncomputable def cosineSimilarity (vecA vecB : List ℝ) : Option ℝ :=
  if vecB.length < vecA.length then none
  else
    let pairs := vecA.zip vecB
    let dotProduct := (pairs.map fun p => p.1 * p.2).sum
    let normA := (vecA.map fun x => x ^ 2).sum
    let normB := (pairs.map fun p => p.2 ^ 2).sum
    if normA = 0 ∨ normB = 0 then none
    else some (dotProduct / (Real.sqrt normA * Real.sqrt normB))

/-- One step of the `bestMatch` tracking loop shared by both classify
strategies: a candidate `(intent, similarity)` replaces the accumulator only
when its similarity is strictly greater (`similarity > bestMatch.similarity`
in JS; a `NaN` similarity, modelled `none`, never replaces). -/
noncomputable def bestStep (best : String × ℝ) (p : String × Option ℝ) : String × ℝ :=
  match p.2 with
  | none => best
  | some similarity => if best.2 < similarity then (p.1, similarity) else best

/-- The `bestMatch` loop: fold the candidates over the initial accumulator
`{ intent: "unknown", similarity: 0 }`. -/
noncomputable def bestMatchFold (pairs : List (String × Option ℝ)) : String × ℝ :=
  pairs.foldl bestStep ("unknown", 0)

/-- `getBatchEmbeddings(textArray)`: the provider call; a transport error is
rethrown, and an empty `response.data` is turned into a thrown error. -/
def getBatchEmbeddings (o : Oracles) (textArray : List String) :
    Except ErrKind (List (List ℝ)) :=
  match o.provider textArray with
  | .error _ => .error .providerError
  | .ok data => if data.length = 0 then .error .providerError else .ok data

/-- `isValidQueryOpenAI(query)`: asks the chat validator, compares the
trimmed lower-cased content with `"valid"`; any thrown error is caught and
turned into `false` (fail-closed). -/
def isValidQueryOpenAI (o : Oracles) (query : String) : Bool :=
  match o.validator query with
  | .error _ => false
  | .ok content => trimLower content == "valid"

/-- The TF-IDF candidate list of `classifyWithTFIDF`: the query vector is
computed once, each dataset document is vectorized against the same corpus,
and each example contributes `(intent, cosineSimilarity(queryVec, docVec))`. -/
noncomputable def tfidfPairs (o : Oracles) (s : ClassifierState) (query : String) :
    List (String × Option ℝ) :=
  let queryVector := o.vecOf s.tfidfDocs query
  s.dataset.map fun ex =>
    (ex.intent, cosineSimilarity queryVector (o.vecOf s.tfidfDocs ex.text))

/-- The `bestMatch` computed by the `classifyWithTFIDF` loop. -/
noncomputable def tfidfBest (o : Oracles) (s : ClassifierState) (query : String) :
    String × ℝ :=
  bestMatchFold (tfidfPairs o s query)

/-- `classifyWithTFIDF(query)`: best match over the dataset, formatted
confidence, and the `similarity >= threshold` cutoff (the same confidence
string is returned on both sides of the cutoff). -/
noncomputable def classifyWithTFIDF (o : Oracles) (fmt : ℝ → String)
    (s : ClassifierState) (query : String) : ClassificationResult :=
  let bestMatch := tfidfBest o s query
  let confidence := fmt (bestMatch.2 * 100) ++ "%"
  if s.threshold ≤ bestMatch.2 then ⟨bestMatch.1, confidence⟩
  else ⟨"unknown", confidence⟩

/-- The `bestMatch` computed by the `classifyWithOpenAI` loop over the
stored embedding records, given the query's embedding vector. -/
noncomputable def openAIBest (s : ClassifierState) (queryEmbedding : List ℝ) :
    String × ℝ :=
  bestMatchFold (s.embeddings.map fun r =>
    (r.intent, cosineSimilarity queryEmbedding r.vector))

/-- `classifyWithOpenAI(query)`: vowel heuristic, validator gate, provider
call, best cosine match over the stored records, threshold cutoff, and the
secondary Jaccard check against `this.embeddings.find(e => e.intent ===
bestMatch.intent)`. The JS float literal `0.2` is the rational `1/5` (the
division `intersection.size / union.size` of small integers rounds the same
way on both sides of the comparison for the set sizes reachable here). -/
noncomputable def classifyWithOpenAI (o : Oracles) (fmt : ℝ → String)
    (s : ClassifierState) (query : String) :
    Except ErrKind ClassificationResult × List ExtCall :=
  if hasVowel query = false then (.ok ⟨"unknown", "0%"⟩, [])
  else if isValidQueryOpenAI o query = false then
    (.ok ⟨"unknown", "Garbage Detected"⟩, [.validate query])
  else
    match getBatchEmbeddings o [query] with
    | .error e => (.error e, [.validate query, .embed [query]])
    | .ok queryEmbedding =>
      let bestMatch := openAIBest s (queryEmbedding.headD [])
      let confidence := fmt (bestMatch.2 * 100) ++ "%"
      let calls := [ExtCall.validate query, ExtCall.embed [query]]
      if bestMatch.2 < s.threshold then (.ok ⟨"unknown", confidence⟩, calls)
      else
        match s.embeddings.find? fun e => e.intent == bestMatch.1 with
        | none => (.ok ⟨bestMatch.1, confidence⟩, calls)
        | some bestEntry =>
          if jaccard (tokenSet query) (tokenSet bestEntry.text) < 1/5 then
            (.ok ⟨"unknown", confidence⟩, calls)
          else (.ok ⟨bestMatch.1, confidence⟩, calls)

/-- Modelled from the spec: the variant of `classifyWithOpenAI` that claim C1
describes, whose secondary Jaccard check uses the first DATASET record whose
intent equals the winning intent ("compute Jaccard similarity between the
query's token set and the token set of the first dataset record whose intent
equals the winning intent"). It differs from the source only in the
`find?` line, which searches `s.dataset` instead of `s.embeddings`. -/
noncomputable def classifyWithOpenAIDatasetJaccard (o : Oracles) (fmt : ℝ → String)
    (s : ClassifierState) (query : String) :
    Except ErrKind ClassificationResult × List ExtCall :=
  if hasVowel query = false then (.ok ⟨"unknown", "0%"⟩, [])
  else if isValidQueryOpenAI o query = false then
    (.ok ⟨"unknown", "Garbage Detected"⟩, [.validate query])
  else
    match getBatchEmbeddings o [query] with
    | .error e => (.error e, [.validate query, .embed [query]])
    | .ok queryEmbedding =>
      let bestMatch := openAIBest s (queryEmbedding.headD [])
      let confidence := fmt (bestMatch.2 * 100) ++ "%"
      let calls := [ExtCall.validate query, ExtCall.embed [query]]
      if bestMatch.2 < s.threshold then (.ok ⟨"unknown", confidence⟩, calls)
      else
        match s.dataset.find? fun e => e.intent == bestMatch.1 with
        | none => (.ok ⟨bestMatch.1, confidence⟩, calls)
        | some bestEntry =>
          if jaccard (tokenSet query) (tokenSet bestEntry.text) < 1/5 then
            (.ok ⟨"unknown", confidence⟩, calls)
          else (.ok ⟨bestMatch.1, confidence⟩, calls)

/-- `classify(query)`: cache lookup, strategy dispatch, cache store. A thrown
provider error propagates and nothing is cached. -/
noncomputable def classify (o : Oracles) (fmt : ℝ → String) (s : ClassifierState)
    (query : String) :
    Except ErrKind ClassificationResult × ClassifierState × List ExtCall :=
  match cacheGet s.cache query with
  | some r => (.ok r, s, [])
  | none =>
    if s.useOpenAI then
      match classifyWithOpenAI o fmt s query with
      | (.ok r, calls) => (.ok r, { s with cache := cacheSet s.cache query r }, calls)
      | (.error e, calls) => (.error e, s, calls)
    else
      let r := classifyWithTFIDF o fmt s query
      (.ok r, { s with cache := cacheSet s.cache query r }, [])

/-- `addIntent(text, intent)`: argument check (JS falsiness of a string is
emptiness), duplicate-text no-op, dataset and TF-IDF append, and (in OpenAI
mode) a synchronous embedding fetch and store append. If the provider call
throws, the dataset/TF-IDF mutation has already happened. -/
def addIntent (o : Oracles) (s : ClassifierState) (text intent : String) :
    Except ErrKind Unit × ClassifierState × List ExtCall :=
  if text = "" ∨ intent = "" then (.error .invalidArgument, s, [])
  else if s.dataset.any fun e => e.text == text then (.ok (), s, [])
  else
    let s1 := { s with dataset := s.dataset ++ [⟨text, intent⟩],
                       tfidfDocs := s.tfidfDocs ++ [text] }
    if s.useOpenAI then
      match getBatchEmbeddings o [text] with
      | .error e => (.error e, s1, [.embed [text]])
      | .ok l =>
        (.ok (), { s1 with embeddings := s1.embeddings ++ [⟨text, intent, l.headD []⟩] },
         [.embed [text]])
    else (.ok (), s1, [])

/-- `removeIntent(intentToRemove)`: filter the dataset, rebuild the TF-IDF
corpus from the remaining dataset, and (in OpenAI mode) filter the embedding
store. -/
def removeIntent (s : ClassifierState) (intentToRemove : String) : ClassifierState :=
  let dataset := s.dataset.filter fun e => e.intent != intentToRemove
  { s with dataset := dataset,
           tfidfDocs := dataset.map fun e => e.text,
           embeddings :=
             if s.useOpenAI then s.embeddings.filter fun r => r.intent != intentToRemove
             else s.embeddings }

/-- The constructor: `useOpenAI` defaults by an `undefined` check, while
`threshold` and `batchSize` default through JS falsiness (`config.threshold
|| 0.50`), so an explicit `0` is replaced by the default; the dataset comes
from the config when it is an array, else from the dataset file, and the
embedding store is loaded from its file. -/
noncomputable def mkClassifier (config : ClassifierConfig)
    (storedDataset : List DataExample) (storedEmbeddings : List EmbeddingRecord) :
    ClassifierState :=
  let dataset := config.dataset.getD storedDataset
  { useOpenAI := config.useOpenAI.getD true
    threshold :=
      match config.threshold with
      | none => 0.5
      | some t => if t = 0 then 0.5 else t
    batchSize :=
      match config.batchSize with
      | none => 50
      | some b => if b = 0 then 50 else b
    cache := []
    dataset := dataset
    embeddings := storedEmbeddings
    tfidfDocs := dataset.map fun e => e.text }

/-- Repeated `classify` calls against one instance, accumulating the external
calls issued (the harness for the caching claim). -/
noncomputable def runQueries (o : Oracles) (fmt : ℝ → String) :
    ClassifierState → List String → ClassifierState × List ExtCall
  | s, [] => (s, [])
  | s, q :: qs =>
    let step := classify o fmt s q
    let rest := runQueries o fmt step.2.1 qs
    (rest.1, step.2.2 ++ rest.2)

/-- The number of external calls in an event list that concern one given
query: its validation, or the embedding request for exactly that query. -/
def countQ (q : String) (calls : List ExtCall) : ℕ :=
  calls.countP fun c => decide (c = ExtCall.validate q ∨ c = ExtCall.embed [q])

lemma cacheGet_cacheSet_self (c : List (String × ClassificationResult)) (q : String)
    (r : ClassificationResult) : cacheGet (cacheSet c q r) q = some r := by
  simp [cacheSet, cacheGet]

lemma cacheGet_filter_ne (c : List (String × ClassificationResult)) (q q' : String)
    (h : q' ≠ q) : cacheGet (c.filter fun p => p.1 != q) q' = cacheGet c q' := by
  induction c with
  | nil => rfl
  | cons p t ih =>
    obtain ⟨k, v⟩ := p
    by_cases hk : k = q
    · rw [List.filter_cons_of_neg (by simp [hk])]
      rw [ih]
      have hkq : ¬(k = q') := fun hkq' => h (by rw [← hkq', hk])
      simp [cacheGet, hkq]
    · rw [List.filter_cons_of_pos (by simp [hk])]
      simp only [cacheGet]
      rw [ih]

lemma cacheGet_cacheSet_ne (c : List (String × ClassificationResult)) (q q' : String)
    (r : ClassificationResult) (h : q' ≠ q) :
    cacheGet (cacheSet c q r) q' = cacheGet c q' := by
  have h2 : ¬(q = q') := fun hh => h hh.symm
  simp only [cacheSet, cacheGet, h2, if_false]
  exact cacheGet_filter_ne c q q' h

lemma foldl_bestStep_preserve (l : List (String × Option ℝ)) (acc : String × ℝ)
    (h : ∀ p ∈ l, ∀ v, p.2 = some v → v ≤ acc.2) :
    l.foldl bestStep acc = acc := by
  induction l with
  | nil => rfl
  | cons p t ih =>
    have hstep : bestStep acc p = acc := by
      cases hp : p.2 with
      | none => simp [bestStep, hp]
      | some v =>
        have hv := h p (List.mem_cons_self p t) v hp
        simp [bestStep, hp, not_lt.mpr hv]
    rw [List.foldl_cons, hstep]
    exact ih fun p hp v hv => h p (List.mem_cons_of_mem _ hp) v hv

lemma foldl_bestStep_lt (l : List (String × Option ℝ)) (m : ℝ) :
    ∀ acc : String × ℝ, acc.2 < m →
      (∀ p ∈ l, ∀ v, p.2 = some v → v < m) → (l.foldl bestStep acc).2 < m := by
  induction l with
  | nil => intro acc hacc _; exact hacc
  | cons p t ih =>
    intro acc hacc h
    rw [List.foldl_cons]
    refine ih (bestStep acc p) ?_ fun p hp v hv => h p (List.mem_cons_of_mem _ hp) v hv
    cases hp : p.2 with
    | none => simpa [bestStep, hp] using hacc
    | some v =>
      have hv := h p (List.mem_cons_self p t) v hp
      by_cases hlt : acc.2 < v
      · simpa [bestStep, hp, hlt] using hv
      · simpa [bestStep, hp, hlt] using hacc

/-- The best-match loop keeps the first candidate that attains the overall
maximum: candidates are only replaced by a strictly greater similarity, so a
later tie loses to the first-seen one. -/
lemma bestMatchFold_first_max (l₁ l₂ : List (String × Option ℝ))
    (p : String × Option ℝ) (m : ℝ) (hp : p.2 = some m) (hm : 0 < m)
    (h₁ : ∀ x ∈ l₁, ∀ v, x.2 = some v → v < m)
    (h₂ : ∀ x ∈ l₂, ∀ v, x.2 = some v → v ≤ m) :
    bestMatchFold (l₁ ++ p :: l₂) = (p.1, m) := by
  unfold bestMatchFold
  rw [List.foldl_append, List.foldl_cons]
  have hacc : (l₁.foldl bestStep ("unknown", 0)).2 < m :=
    foldl_bestStep_lt l₁ m ("unknown", 0) hm h₁
  have hstep : bestStep (l₁.foldl bestStep ("unknown", 0)) p = (p.1, m) := by
    simp [bestStep, hp, hacc]
  rw [hstep]
  exact foldl_bestStep_preserve l₂ (p.1, m) fun x hx v hv => h₂ x hx v hv

lemma sumSq_nonneg (l : List ℝ) : 0 ≤ (l.map fun x => x ^ 2).sum := by
  apply List.sum_nonneg
  intro a ha
  obtain ⟨x, _, rfl⟩ := List.mem_map.mp ha
  positivity

lemma sumSq_pos (l : List ℝ) (x : ℝ) (hx : x ∈ l) (hne : x ≠ 0) :
    0 < (l.map fun y => y ^ 2).sum := by
  induction l with
  | nil => cases hx
  | cons a t ih =>
    simp only [List.map_cons, List.sum_cons]
    rcases List.mem_cons.mp hx with rfl | hmem
    · have h1 : 0 < x ^ 2 := by positivity
      have h2 := sumSq_nonneg t
      linarith
    · have h1 := ih hmem
      have h2 : 0 ≤ a ^ 2 := sq_nonneg a
      linarith

lemma zip_self_map (a : List ℝ) :
    ((a.zip a).map fun p => p.1 * p.2) = a.map fun x => x ^ 2 := by
  induction a with
  | nil => rfl
  | cons x t ih => simp [ih, pow_two]

lemma zip_map_mul_comm (a : List ℝ) :
    ∀ b : List ℝ, ((a.zip b).map fun p => p.1 * p.2).sum
      = ((b.zip a).map fun p => p.1 * p.2).sum := by
  induction a with
  | nil => intro b; cases b <;> simp
  | cons x t ih =>
    intro b
    cases b with
    | nil => simp
    | cons y u => simp [ih u, mul_comm]

lemma zip_map_snd_sq (a : List ℝ) :
    ∀ b : List ℝ, a.length = b.length →
      ((a.zip b).map fun p => p.2 ^ 2).sum = (b.map fun x => x ^ 2).sum := by
  induction a with
  | nil => intro b hb; cases b with
    | nil => rfl
    | cons y u => simp at hb
  | cons x t ih =>
    intro b hb
    cases b with
    | nil => simp at hb
    | cons y u =>
      simp only [List.length_cons, Nat.succ.injEq] at hb
      simp [ih u hb]

/-- Cosine symmetry on equal-length vectors. -/
lemma cosineSimilarity_comm (a b : List ℝ) (hlen : a.length = b.length) :
    cosineSimilarity a b = cosineSimilarity b a := by
  unfold cosineSimilarity
  rw [hlen]
  simp only [lt_self_iff_false, if_false]
  rw [zip_map_mul_comm a b, zip_map_snd_sq a b hlen, zip_map_snd_sq b a hlen.symm]
  by_cases hA : (a.map fun x => x ^ 2).sum = 0 <;>
    by_cases hB : (b.map fun x => x ^ 2).sum = 0 <;>
      simp [hA, hB, mul_comm]

/-- Cosine of a nonzero vector with itself is one. -/
lemma cosineSimilarity_self (a : List ℝ) (x : ℝ) (hx : x ∈ a) (hne : x ≠ 0) :
    cosineSimilarity a a = some 1 := by
  unfold cosineSimilarity
  have hpos := sumSq_pos a x hx hne
  simp only [lt_self_iff_false, if_false, zip_self_map, zip_map_snd_sq a a rfl]
  rw [if_neg (by push_neg; exact ⟨ne_of_gt hpos, ne_of_gt hpos⟩)]
  rw [Real.mul_self_sqrt (le_of_lt hpos), div_self (ne_of_gt hpos)]

lemma cosine_one_one : cosineSimilarity [(1 : ℝ)] [1] = some 1 := by
  norm_num [cosineSimilarity, Real.sqrt_one]

lemma cosine_half : cosineSimilarity [(1 : ℝ), 1, 0, 0] [0, 1, 1, 0] = some (1 / 2) := by
  have h2 : Real.sqrt 2 * Real.sqrt 2 = 2 := Real.mul_self_sqrt (by norm_num)
  norm_num [cosineSimilarity, h2]

/-- C8 counterexample: `cosineSimilarity` is not symmetric for every pair of
vectors. On `a = [1,1]`, `b = [1]` the JS loop reads past the end of `b` and
returns `NaN` (modelled `none`) for `cosine(a, b)`, while `cosine(b, a)` only
iterates over `b`'s single index and returns `1`; the two results differ. -/
theorem C8_counterexample :
    cosineSimilarity [(1 : ℝ), 1] [1] ≠ cosineSimilarity [1] [(1 : ℝ), 1] := by
  norm_num [cosineSimilarity, Real.sqrt_one]
  exact fun h => Option.noConfusion h

/-- C8 (amended): for every pair of EQUAL-LENGTH vectors `a` and `b`,
`cosine(a, b) = cosine(b, a)`, and for every vector `a` with some nonzero
entry, `cosine(a, a) = 1`. -/
theorem C8_cosine_symm_self (a b : List ℝ) (hlen : a.length = b.length)
    (hnz : ∃ x ∈ a, x ≠ 0) :
    cosineSimilarity a b = cosineSimilarity b a ∧ cosineSimilarity a a = some 1 := by
  obtain ⟨x, hx, hne⟩ := hnz
  exact ⟨cosineSimilarity_comm a b hlen, cosineSimilarity_self a x hx hne⟩

/-- C8 witness: the amended symmetry/self statement at the concrete vectors
`a = [1]`, `b = [0]`. -/
theorem C8_witness :
    cosineSimilarity [(1 : ℝ)] [0] = cosineSimilarity [0] [(1 : ℝ)] ∧
      cosineSimilarity [(1 : ℝ)] [1] = some 1 :=
  C8_cosine_symm_self [1] [0] rfl ⟨1, by simp, one_ne_zero⟩

lemma getBatchEmbeddings_error (o : Oracles) (texts : List String) (e : ErrKind)
    (h : getBatchEmbeddings o texts = .error e) : e = .providerError := by
  unfold getBatchEmbeddings at h
  cases hp : o.provider texts with
  | error u =>
    rw [hp] at h
    exact (Except.error.inj h).symm
  | ok data =>
    rw [hp] at h
    simp only [] at h
    by_cases hd : data.length = 0
    · rw [if_pos hd] at h
      exact (Except.error.inj h).symm
    · rw [if_neg hd] at h
      exact Except.noConfusion h

/-- C10: an explicitly configured threshold of `0` is falsy in
`config.threshold || 0.50`, so the effective threshold is the default `0.5`;
likewise an absent threshold, and a `0` or absent batch size fall back to
their defaults; consequently no constructor configuration yields a zero
effective threshold. -/
theorem C10_falsy_threshold_default (config : ClassifierConfig)
    (ds : List DataExample) (es : List EmbeddingRecord)
    (h : config.threshold = some 0) :
    (mkClassifier config ds es).threshold = 0.5 ∧
      (∀ c : ClassifierConfig, c.threshold = none →
        (mkClassifier c ds es).threshold = 0.5) ∧
      (∀ c : ClassifierConfig, c.batchSize = some 0 ∨ c.batchSize = none →
        (mkClassifier c ds es).batchSize = 50) ∧
      ∀ (c : ClassifierConfig) (ds' : List DataExample) (es' : List EmbeddingRecord),
        (mkClassifier c ds' es').threshold ≠ 0 := by
  refine ⟨by simp [mkClassifier, h], fun c hc => by simp [mkClassifier, hc],
    fun c hc => ?_, fun c ds' es' => ?_⟩
  · rcases hc with hc | hc <;> simp [mkClassifier, hc]
  · rcases hc : c.threshold with _ | t
    · simp [mkClassifier, hc]
      norm_num
    · by_cases ht : t = 0
      · simp [mkClassifier, hc, ht]
        norm_num
      · simp [mkClassifier, hc, ht]

/-- C10 witness: a constructor call with `threshold: 0` and `batchSize: 0`
gets the defaults `0.5` and `50`, and its threshold is nonzero. -/
theorem C10_witness :
    (mkClassifier ⟨none, some 0, some 0, none⟩ [] []).threshold = 0.5 ∧
      (mkClassifier ⟨none, none, none, none⟩ [] []).threshold = 0.5 ∧
      (mkClassifier ⟨none, some 0, some 0, none⟩ [] []).batchSize = 50 ∧
      (mkClassifier ⟨none, some 0, some 0, none⟩ [] []).threshold ≠ 0 := by
  have h := C10_falsy_threshold_default ⟨none, some 0, some 0, none⟩ [] [] rfl
  exact ⟨h.1, h.2.1 ⟨none, none, none, none⟩ rfl,
    h.2.2.1 ⟨none, some 0, some 0, none⟩ (Or.inl rfl),
    h.2.2.2 ⟨none, some 0, some 0, none⟩ [] []⟩

/-- C9: `addIntent` fails with the invalid-argument error exactly when the
text or the intent is the empty string (JS falsiness of a string), and a
duplicate text with nonempty arguments is a complete no-op: same state, no
external call, successful return. -/
theorem C9_addIntent_contract (o : Oracles) (s : ClassifierState)
    (text intent : String) :
    ((addIntent o s text intent).1 = .error .invalidArgument ↔
        text = "" ∨ intent = "") ∧
      (text ≠ "" → intent ≠ "" → (s.dataset.any fun e => e.text == text) = true →
        addIntent o s text intent = (.ok (), s, [])) := by
  constructor
  · by_cases hempty : text = "" ∨ intent = ""
    · simp [addIntent, hempty]
    · unfold addIntent
      rw [if_neg hempty]
      by_cases hdup : (s.dataset.any fun e => e.text == text) = true
      · simp [hdup, hempty]
      · simp only [hdup, if_false, Bool.false_eq_true]
        by_cases hopen : s.useOpenAI
        · cases hprov : getBatchEmbeddings o [text] with
          | error e =>
            have he := getBatchEmbeddings_error o [text] e hprov
            subst he
            simp [hopen, hprov, hempty]
          | ok l => simp [hopen, hprov, hempty]
        · simp [hopen, hempty]
  · intro ht hi hdup
    unfold addIntent
    rw [if_neg (by tauto), if_pos hdup]

/-- C2: in lexical mode the classifier returns the tracked best-matching
intent exactly when the best similarity reaches the threshold, with the
boundary `similarity >= threshold` resolving as a match, and returns
`"unknown"` with the very same formatted confidence value otherwise. -/
theorem C2_threshold_boundary (o : Oracles) (fmt : ℝ → String)
    (s : ClassifierState) (query : String) :
    (s.threshold ≤ (tfidfBest o s query).2 →
      classifyWithTFIDF o fmt s query =
        ⟨(tfidfBest o s query).1, fmt ((tfidfBest o s query).2 * 100) ++ "%"⟩) ∧
      ((tfidfBest o s query).2 < s.threshold →
        classifyWithTFIDF o fmt s query =
          ⟨"unknown", fmt ((tfidfBest o s query).2 * 100) ++ "%"⟩) := by
  constructor
  · intro h
    unfold classifyWithTFIDF
    rw [if_pos h]
  · intro h
    unfold classifyWithTFIDF
    rw [if_neg (not_le.mpr h)]

/-- C7: ties keep the first-seen dataset example as winner: if the candidate
list splits around an entry attaining the overall maximum similarity, with
everything before it strictly below and everything after it at most that
value, the tracked best pair is that first maximal entry (later equal
similarities never replace it, since replacement needs a strictly greater
similarity). -/
theorem C7_first_seen_wins (o : Oracles) (s : ClassifierState) (query : String)
    (l₁ l₂ : List (String × Option ℝ)) (p : String × Option ℝ) (m : ℝ)
    (hsplit : tfidfPairs o s query = l₁ ++ p :: l₂)
    (hp : p.2 = some m) (hm : 0 < m)
    (h₁ : ∀ x ∈ l₁, ∀ v, x.2 = some v → v < m)
    (h₂ : ∀ x ∈ l₂, ∀ v, x.2 = some v → v ≤ m) :
    tfidfBest o s query = (p.1, m) := by
  unfold tfidfBest
  rw [hsplit]
  exact bestMatchFold_first_max l₁ l₂ p m hp hm h₁ h₂

/-- C5: an uncached query without any vowel is classified `"unknown"` with
the sentinel confidence `"0%"` in embedding mode, with an empty external-call
list (neither the validator nor the provider is invoked), and the whole
outcome is identical under any two oracle environments. -/
theorem C5_no_vowel_hyperproperty (o₁ o₂ : Oracles) (fmt : ℝ → String)
    (s : ClassifierState) (query : String)
    (hcache : cacheGet s.cache query = none) (hmode : s.useOpenAI = true)
    (hvow : hasVowel query = false) :
    classify o₁ fmt s query =
      (.ok ⟨"unknown", "0%"⟩,
        { s with cache := cacheSet s.cache query ⟨"unknown", "0%"⟩ }, []) ∧
      classify o₁ fmt s query = classify o₂ fmt s query := by
  have h1 : ∀ o : Oracles,
      classifyWithOpenAI o fmt s query = (.ok ⟨"unknown", "0%"⟩, []) := by
    intro o
    unfold classifyWithOpenAI
    rw [if_pos hvow]
  have h2 : ∀ o : Oracles,
      classify o fmt s query =
        (.ok ⟨"unknown", "0%"⟩,
          { s with cache := cacheSet s.cache query ⟨"unknown", "0%"⟩ }, []) := by
    intro o
    simp [classify, hcache, hmode, h1 o]
  exact ⟨h2 o₁, by rw [h2 o₁, h2 o₂]⟩

lemma trimLower_invalid : (trimLower "invalid" == "valid") = false := by decide

/-- C6: when the validator call fails, `isValidQueryOpenAI` catches the error
and answers `false`, so `classify` does not propagate any error and returns
`"unknown"` with the sentinel confidence `"Garbage Detected"`, exactly the
same complete outcome as when the validator answers `"invalid"`. -/
theorem C6_validator_fail_closed (o : Oracles) (fmt : ℝ → String)
    (s : ClassifierState) (query : String)
    (hcache : cacheGet s.cache query = none) (hmode : s.useOpenAI = true)
    (hvow : hasVowel query = true) (hval : o.validator query = .error ()) :
    classify o fmt s query =
      (.ok ⟨"unknown", "Garbage Detected"⟩,
        { s with cache := cacheSet s.cache query ⟨"unknown", "Garbage Detected"⟩ },
        [.validate query]) ∧
      ∀ o₂ : Oracles, o₂.validator query = .ok "invalid" →
        classify o₂ fmt s query = classify o fmt s query := by
  have key : ∀ o' : Oracles, isValidQueryOpenAI o' query = false →
      classify o' fmt s query =
        (.ok ⟨"unknown", "Garbage Detected"⟩,
          { s with cache := cacheSet s.cache query ⟨"unknown", "Garbage Detected"⟩ },
          [.validate query]) := by
    intro o' hvalid
    have h1 : classifyWithOpenAI o' fmt s query =
        (.ok ⟨"unknown", "Garbage Detected"⟩, [.validate query]) := by
      unfold classifyWithOpenAI
      rw [if_neg (by simp [hvow]), if_pos hvalid]
    simp [classify, hcache, hmode, h1]
  have hv1 : isValidQueryOpenAI o query = false := by
    simp [isValidQueryOpenAI, hval]
  refine ⟨key o hv1, fun o₂ h2 => ?_⟩
  have hv2 : isValidQueryOpenAI o₂ query = false := by
    simp [isValidQueryOpenAI, h2, trimLower_invalid]
  rw [key o hv1, key o₂ hv2]

/-- A concrete stand-in for `toFixed(2)` used in the concrete scenarios. -/
def fmtW : ℝ → String := fun _ => ""

/-- Oracles for the lexical boundary scenario: the dataset document `"d"`
vectorizes to `[0,1,1,0]`, every other text to `[1,1,0,0]`; their cosine
similarity is exactly `1/2`. -/
noncomputable def oC2 : Oracles :=
  ⟨fun _ => .ok "valid", fun _ => .ok [[1]],
   fun _ t => if t = "d" then [0, 1, 1, 0] else [1, 1, 0, 0]⟩

/-- Lexical-mode state with one example and threshold exactly `1/2`. -/
noncomputable def sC2 : ClassifierState :=
  ⟨false, 1 / 2, 50, [], [⟨"d", "greet"⟩], [], ["d"]⟩

/-- C2 witness: at the exact boundary (best similarity `1/2` equals the
threshold `1/2`) the matched intent is returned, not `"unknown"`. -/
theorem C2_witness :
    sC2.threshold ≤ (tfidfBest oC2 sC2 "q").2 ∧
      classifyWithTFIDF oC2 fmtW sC2 "q" = ⟨"greet", "%"⟩ := by
  have hpairs : tfidfPairs oC2 sC2 "q" =
      [("greet", cosineSimilarity [1, 1, 0, 0] [0, 1, 1, 0])] := rfl
  have hb : tfidfBest oC2 sC2 "q" = ("greet", 1 / 2) := by
    unfold tfidfBest
    rw [hpairs, cosine_half]
    norm_num [bestMatchFold, bestStep]
  have hle : sC2.threshold ≤ (tfidfBest oC2 sC2 "q").2 := by
    rw [hb]
    norm_num [sC2]
  refine ⟨hle, ?_⟩
  rw [(C2_threshold_boundary oC2 fmtW sC2 "q").1 hle, hb]
  rfl

/-- Oracles for the tie scenario: every text vectorizes to `[1]`. -/
noncomputable def oC7 : Oracles :=
  ⟨fun _ => .ok "valid", fun _ => .ok [[1]], fun _ _ => [1]⟩

/-- Lexical-mode state with two examples that tie at similarity `1`. -/
noncomputable def sC7 : ClassifierState :=
  ⟨false, 1 / 2, 50, [], [⟨"a", "i1"⟩, ⟨"b", "i2"⟩], [], ["a", "b"]⟩

/-- C7 witness: two dataset examples tie at cosine similarity `1`; the
tracked best pair is the first-seen one. -/
theorem C7_witness : tfidfBest oC7 sC7 "hello" = ("i1", 1) := by
  have hsplit : tfidfPairs oC7 sC7 "hello" =
      [] ++ ("i1", cosineSimilarity [1] [1]) :: [("i2", cosineSimilarity [1] [1])] := rfl
  refine C7_first_seen_wins oC7 sC7 "hello" [] [("i2", cosineSimilarity [1] [1])]
    ("i1", cosineSimilarity [1] [1]) 1 hsplit cosine_one_one one_pos ?_ ?_
  · intro x hx v hv
    cases hx
  · intro x hx v hv
    rcases List.mem_singleton.mp hx with rfl
    rw [cosine_one_one] at hv  -- hv is now about the literal pair's snd
    exact le_of_eq (Option.some.inj hv).symm

/-- A fully answering oracle environment. -/
noncomputable def oC5a : Oracles :=
  ⟨fun _ => .ok "valid", fun _ => .ok [[1]], fun _ _ => [1]⟩

/-- A fully failing oracle environment. -/
noncomputable def oC5b : Oracles :=
  ⟨fun _ => .error (), fun _ => .error (), fun _ _ => []⟩

/-- Embedding-mode state with an empty cache. -/
noncomputable def sC5 : ClassifierState :=
  ⟨true, 1 / 2, 50, [], [], [⟨"t", "A", [1]⟩], []⟩

/-- C5 witness: the vowel-free query `"xxxxxxxx?"` yields `"unknown"`/`"0%"`
with no external call, identically under an answering and a failing oracle
environment. -/
theorem C5_witness :
    classify oC5a fmtW sC5 "xxxxxxxx?" =
      (.ok ⟨"unknown", "0%"⟩,
        { sC5 with cache := cacheSet sC5.cache "xxxxxxxx?" ⟨"unknown", "0%"⟩ }, []) ∧
      classify oC5a fmtW sC5 "xxxxxxxx?" = classify oC5b fmtW sC5 "xxxxxxxx?" :=
  C5_no_vowel_hyperproperty oC5a oC5b fmtW sC5 "xxxxxxxx?" rfl rfl (by decide)

/-- An environment whose validator always fails. -/
noncomputable def oC6 : Oracles :=
  ⟨fun _ => .error (), fun _ => .ok [[1]], fun _ _ => [1]⟩

/-- An environment whose validator always answers `"invalid"`. -/
noncomputable def oC6b : Oracles :=
  ⟨fun _ => .ok "invalid", fun _ => .ok [[1]], fun _ _ => [1]⟩

/-- Embedding-mode state for the fail-closed scenario. -/
noncomputable def sC6 : ClassifierState :=
  ⟨true, 1 / 2, 50, [], [], [], []⟩

/-- C6 witness: with a failing validator, `classify "hello"` succeeds with
`"unknown"`/`"Garbage Detected"`, identical to the run whose validator
answers `"invalid"`. -/
theorem C6_witness :
    classify oC6 fmtW sC6 "hello" =
      (.ok ⟨"unknown", "Garbage Detected"⟩,
        { sC6 with cache := cacheSet sC6.cache "hello" ⟨"unknown", "Garbage Detected"⟩ },
        [.validate "hello"]) ∧
      classify oC6b fmtW sC6 "hello" = classify oC6 fmtW sC6 "hello" := by
  have h := C6_validator_fail_closed oC6 fmtW sC6 "hello" rfl rfl (by decide) rfl
  exact ⟨h.1, h.2 oC6b rfl⟩

/-- Environment and state for the duplicate-insertion scenario. -/
noncomputable def oC9 : Oracles :=
  ⟨fun _ => .ok "valid", fun _ => .ok [[1]], fun _ _ => [1]⟩

/-- State already containing the text `"hello"`. -/
noncomputable def sC9 : ClassifierState :=
  ⟨true, 1 / 2, 50, [], [⟨"hello", "greet"⟩], [⟨"hello", "greet", [1]⟩], ["hello"]⟩

/-- C9 witness: an empty text fails with the invalid-argument error, and
re-adding the existing text `"hello"` is a complete no-op. -/
theorem C9_witness :
    (addIntent oC9 sC9 "" "greet").1 = .error .invalidArgument ∧
      addIntent oC9 sC9 "hello" "greet" = (.ok (), sC9, []) := by
  refine ⟨(C9_addIntent_contract oC9 sC9 "" "greet").1.mpr (Or.inl rfl),
    (C9_addIntent_contract oC9 sC9 "hello" "greet").2 (by decide) (by decide) rfl⟩

lemma classify_cache_hit (o : Oracles) (fmt : ℝ → String) (s : ClassifierState)
    (q : String) (r : ClassificationResult) (h : cacheGet s.cache q = some r) :
    classify o fmt s q = (.ok r, s, []) := by
  simp [classify, h]

lemma classify_stores (o : Oracles) (fmt : ℝ → String) (s : ClassifierState)
    (q : String) (r : ClassificationResult) (s' : ClassifierState)
    (calls : List ExtCall) (h : classify o fmt s q = (.ok r, s', calls)) :
    cacheGet s'.cache q = some r := by
  cases hc : cacheGet s.cache q with
  | some r0 =>
    rw [classify_cache_hit o fmt s q r0 hc] at h
    simp only [Prod.mk.injEq] at h
    obtain ⟨h1, h2, -⟩ := h
    rw [← h2, hc, Except.ok.inj h1]
  | none =>
    by_cases hopen : s.useOpenAI
    · cases hcw : classifyWithOpenAI o fmt s q with
      | mk res calls' =>
        cases res with
        | ok r1 =>
          simp only [classify, hc, hopen, if_true, hcw] at h
          simp only [Prod.mk.injEq] at h
          obtain ⟨h1, h2, -⟩ := h
          rw [← h2, Except.ok.inj h1, cacheGet_cacheSet_self]
        | error e =>
          simp only [classify, hc, hopen, if_true, hcw] at h
          simp only [Prod.mk.injEq] at h
          exact absurd h.1 (by simp)
    · simp only [classify, hc, hopen, Bool.false_eq_true, if_false] at h
      simp only [Prod.mk.injEq] at h
      obtain ⟨h1, h2, -⟩ := h
      rw [← h2, Except.ok.inj h1, cacheGet_cacheSet_self]

lemma classify_preserve (o : Oracles) (fmt : ℝ → String) (s : ClassifierState)
    (x q : String) (r : ClassificationResult) (h : cacheGet s.cache q = some r) :
    cacheGet ((classify o fmt s x).2.1).cache q = some r := by
  cases hc : cacheGet s.cache x with
  | some rx =>
    rw [classify_cache_hit o fmt s x rx hc]
    exact h
  | none =>
    have hne : q ≠ x := by
      intro he
      rw [he, hc] at h
      cases h
    by_cases hopen : s.useOpenAI
    · cases hcw : classifyWithOpenAI o fmt s x with
      | mk res calls' =>
        cases res with
        | ok r1 =>
          simp only [classify, hc, hopen, if_true, hcw]
          rw [cacheGet_cacheSet_ne s.cache x q r1 hne]
          exact h
        | error e =>
          simp only [classify, hc, hopen, if_true, hcw]
          exact h
    · simp only [classify, hc, hopen, Bool.false_eq_true, if_false]
      rw [cacheGet_cacheSet_ne s.cache x q _ hne]
      exact h

lemma classifyWithOpenAI_calls (o : Oracles) (fmt : ℝ → String) (s : ClassifierState)
    (x : String) :
    (classifyWithOpenAI o fmt s x).2 = [] ∨
      (classifyWithOpenAI o fmt s x).2 = [.validate x] ∨
      (classifyWithOpenAI o fmt s x).2 = [.validate x, .embed [x]] := by
  unfold classifyWithOpenAI
  by_cases h1 : hasVowel x = false
  · rw [if_pos h1]
    left
    rfl
  · rw [if_neg h1]
    by_cases h2 : isValidQueryOpenAI o x = false
    · rw [if_pos h2]
      right
      left
      rfl
    · rw [if_neg h2]
      right
      right
      cases hg : getBatchEmbeddings o [x] with
      | error e => rfl
      | ok l =>
        simp only []
        split
        · rfl
        · split
          · rfl
          · split
            · rfl
            · rfl

lemma classify_calls (o : Oracles) (fmt : ℝ → String) (s : ClassifierState)
    (x : String) :
    ∀ c ∈ (classify o fmt s x).2.2, c = ExtCall.validate x ∨ c = ExtCall.embed [x] := by
  intro c hmem
  cases hc : cacheGet s.cache x with
  | some rx =>
    rw [classify_cache_hit o fmt s x rx hc] at hmem
    cases hmem
  | none =>
    by_cases hopen : s.useOpenAI
    · cases hcw : classifyWithOpenAI o fmt s x with
      | mk res calls' =>
        have hsub : calls' = [] ∨ calls' = [.validate x] ∨
            calls' = [.validate x, .embed [x]] := by
          have := classifyWithOpenAI_calls o fmt s x
          rw [hcw] at this
          exact this
        have hcalls : (classify o fmt s x).2.2 = calls' := by
          cases res with
          | ok r1 => simp [classify, hc, hopen, hcw]
          | error e => simp [classify, hc, hopen, hcw]
        rw [hcalls] at hmem
        rcases hsub with rfl | rfl | rfl
        · cases hmem
        · rcases List.mem_singleton.mp hmem with rfl
          exact Or.inl rfl
        · rcases List.mem_cons.mp hmem with rfl | hmem2
          · exact Or.inl rfl
          · rcases List.mem_singleton.mp hmem2 with rfl
            exact Or.inr rfl
    · simp only [classify, hc, hopen, Bool.false_eq_true, if_false] at hmem
      cases hmem

lemma runQueries_cached (o : Oracles) (fmt : ℝ → String) (qs : List String) :
    ∀ (s : ClassifierState) (q : String) (r : ClassificationResult),
      cacheGet s.cache q = some r →
      cacheGet ((runQueries o fmt s qs).1).cache q = some r ∧
        countQ q (runQueries o fmt s qs).2 = 0 := by
  induction qs with
  | nil =>
    intro s q r h
    exact ⟨h, rfl⟩
  | cons x t ih =>
    intro s q r h
    have hpres := classify_preserve o fmt s x q r h
    obtain ⟨ih1, ih2⟩ := ih (classify o fmt s x).2.1 q r hpres
    have hz : countQ q (classify o fmt s x).2.2 = 0 := by
      by_cases hxq : x = q
      · subst hxq
        rw [classify_cache_hit o fmt s x r h]
        rfl
      · rw [countQ, List.countP_eq_zero]
        intro c hcmem
        rcases classify_calls o fmt s x c hcmem with rfl | rfl <;>
          simp [hxq, fun hh : q = x => hxq hh.symm]
    constructor
    · exact ih1
    · show countQ q ((classify o fmt s x).2.2 ++ (runQueries o fmt (classify o fmt s x).2.1 t).2) = 0
      rw [countQ, List.countP_append, ← countQ, ← countQ, hz, ih2]

/-- C3 (amended): when a `classify` call completes successfully, its result
is stored in the cache under the raw query key; after any further sequence
of `classify` calls, that query triggers no validator or provider call, and
classifying it again returns the cached result with no state change and no
external call. (The unqualified claim fails when the provider call errors:
nothing is cached then and the external calls are repeated.) -/
theorem C3_cache_at_most_once (o : Oracles) (fmt : ℝ → String) (s : ClassifierState)
    (q : String) (r : ClassificationResult) (s' : ClassifierState)
    (calls : List ExtCall) (h : classify o fmt s q = (.ok r, s', calls)) :
    cacheGet s'.cache q = some r ∧
      ∀ qs : List String,
        countQ q (runQueries o fmt s' qs).2 = 0 ∧
          classify o fmt (runQueries o fmt s' qs).1 q =
            (.ok r, (runQueries o fmt s' qs).1, []) := by
  have hstore := classify_stores o fmt s q r s' calls h
  refine ⟨hstore, fun qs => ?_⟩
  obtain ⟨h1, h2⟩ := runQueries_cached o fmt qs s' q r hstore
  exact ⟨h2, classify_cache_hit o fmt _ q r h1⟩

/-- An environment whose validator answers but whose provider always fails. -/
noncomputable def oCE3 : Oracles :=
  ⟨fun _ => .ok "valid", fun _ => .error (), fun _ _ => []⟩

/-- Embedding-mode state for the repeated-provider-failure scenario. -/
noncomputable def sCE3 : ClassifierState :=
  ⟨true, 1 / 2, 50, [], [], [], []⟩

/-- C3 counterexample: with a failing embedding provider, two `classify`
calls of the very same query `"a"` invoke the validator twice — the failed
first call cached nothing, so the at-most-once-per-distinct-query claim is
false as stated. -/
theorem C3_counterexample :
    (runQueries oCE3 fmtW sCE3 ["a", "a"]).2.countP
      (fun c => decide (c = ExtCall.validate "a")) = 2 := by
  decide

/-- A fully answering environment for the caching witness. -/
noncomputable def oC3 : Oracles :=
  ⟨fun _ => .ok "valid", fun _ => .ok [[1]], fun _ _ => [1]⟩

/-- Lexical-mode state with an empty cache and empty dataset. -/
noncomputable def sC3 : ClassifierState :=
  ⟨false, 1 / 2, 50, [], [], [], []⟩

/-- The result of classifying `"q"` in `sC3` under the trivial formatter. -/
def rC3 : ClassificationResult := ⟨"unknown", "%"⟩

/-- The state after that classification: the result is cached. -/
noncomputable def sC3x : ClassifierState := { sC3 with cache := [("q", rC3)] }

/-- C3 witness: after one successful classification of `"q"` the result is
cached; replaying `["q"]` issues no external call for `"q"` and returns the
cached result unchanged. -/
theorem C3_witness :
    cacheGet sC3x.cache "q" = some rC3 ∧
      countQ "q" (runQueries oC3 fmtW sC3x ["q"]).2 = 0 ∧
      classify oC3 fmtW (runQueries oC3 fmtW sC3x ["q"]).1 "q" =
        (.ok rC3, (runQueries oC3 fmtW sC3x ["q"]).1, []) := by
  have hb : tfidfBest oC3 sC3 "q" = ("unknown", 0) := rfl
  have hth : sC3.threshold = 1 / 2 := rfl
  have ht : classifyWithTFIDF oC3 fmtW sC3 "q" = rC3 := by
    simp only [classifyWithTFIDF, hb, hth]
    norm_num
    rfl
  have hnone : cacheGet sC3.cache "q" = none := rfl
  have hopen : sC3.useOpenAI = false := rfl
  have h : classify oC3 fmtW sC3 "q" = (.ok rC3, sC3x, []) := by
    simp only [classify, hnone, hopen, Bool.false_eq_true, if_false, ht]
    rfl
  have H := C3_cache_at_most_once oC3 fmtW sC3 "q" rC3 sC3x [] h
  exact ⟨H.1, (H.2 ["q"]).1, (H.2 ["q"]).2⟩

lemma find?_first_intent (l₁ l₂ : List EmbeddingRecord) (e : EmbeddingRecord)
    (w : String) (hfirst : ∀ r ∈ l₁, r.intent ≠ w) (hint : e.intent = w) :
    (l₁ ++ e :: l₂).find? (fun r => r.intent == w) = some e := by
  induction l₁ with
  | nil =>
    rw [List.nil_append]
    exact List.find?_cons_of_pos _ (by simp [hint])
  | cons a t ih =>
    rw [List.cons_append, List.find?_cons_of_neg]
    · exact ih fun r hr => hfirst r (List.mem_cons_of_mem a hr)
    · simp [hfirst a (List.mem_cons_self a t)]

/-- C1 (amended): in embedding mode, when the garbage filter passes and the
best cosine similarity reaches the threshold, the secondary validation
computes the Jaccard similarity against the first EMBEDDING-STORE record
whose intent equals the winning intent (not the first dataset record, and
not the record that produced the best score); below `0.2` the intent is
overridden to `"unknown"` while the numeric confidence is kept, otherwise
the winning intent is returned. -/
theorem C1_jaccard_first_embedding_record (o : Oracles) (fmt : ℝ → String)
    (s : ClassifierState) (q : String) (l : List (List ℝ))
    (e : EmbeddingRecord) (l₁ l₂ : List EmbeddingRecord)
    (hvow : hasVowel q = true)
    (hval : isValidQueryOpenAI o q = true)
    (hprov : getBatchEmbeddings o [q] = .ok l)
    (hthr : s.threshold ≤ (openAIBest s (l.headD [])).2)
    (hsplit : s.embeddings = l₁ ++ e :: l₂)
    (hint : e.intent = (openAIBest s (l.headD [])).1)
    (hfirst : ∀ r ∈ l₁, r.intent ≠ (openAIBest s (l.headD [])).1) :
    classifyWithOpenAI o fmt s q =
      (.ok ⟨if jaccard (tokenSet q) (tokenSet e.text) < 1 / 5 then "unknown"
            else (openAIBest s (l.headD [])).1,
            fmt ((openAIBest s (l.headD [])).2 * 100) ++ "%"⟩,
        [ExtCall.validate q, ExtCall.embed [q]]) := by
  have hfind : s.embeddings.find?
      (fun r => r.intent == (openAIBest s (l.headD [])).1) = some e := by
    rw [hsplit]
    exact find?_first_intent l₁ l₂ e _ hfirst hint
  unfold classifyWithOpenAI
  rw [if_neg (by simp [hvow]), if_neg (by simp [hval]), hprov]
  simp only []
  rw [if_neg (not_lt.mpr hthr), hfind]
  simp only []
  by_cases hj : jaccard (tokenSet q) (tokenSet e.text) < 1 / 5
  · rw [if_pos hj, if_pos hj]
  · rw [if_neg hj, if_neg hj]

lemma jaccard_lt_fifth (A B : Finset String) (hI : (A ∩ B).card = 0)
    (hU : 0 < (A ∪ B).card) : jaccard A B < 1 / 5 := by
  rw [jaccard, if_pos hU, hI, Nat.cast_zero, zero_div]
  norm_num

lemma jaccard_self_not_lt (A : Finset String) (h : 0 < A.card) :
    ¬(jaccard A A < 1 / 5) := by
  rw [jaccard, Finset.union_self, Finset.inter_self, if_pos h]
  rw [div_self]
  · norm_num
  · exact_mod_cast Nat.pos_iff_ne_zero.mp h

/-- Environment for the Jaccard-source scenario. -/
noncomputable def oC1 : Oracles :=
  ⟨fun _ => .ok "valid", fun _ => .ok [[1]], fun _ _ => [1]⟩

/-- A state whose dataset and embedding store disagree on the text of the
first record with intent `"A"`: the dataset text matches the query, the
stored record's text does not. -/
noncomputable def sC1 : ClassifierState :=
  ⟨true, 1 / 2, 50, [], [⟨"apple banana", "A"⟩], [⟨"q w r t", "A", [1]⟩],
   ["apple banana"]⟩

/-- C1 counterexample: the code computes the secondary Jaccard check against
the first EMBEDDINGS record with the winning intent (text `"q w r t"`,
Jaccard `0`, so `"unknown"`), while the claim's rule — the first DATASET
record with that intent (text `"apple banana"`, Jaccard `1`) — would return
`"A"`; the two disagree on this input. -/
theorem C1_counterexample :
    (classifyWithOpenAI oC1 fmtW sC1 "apple banana").1 = .ok ⟨"unknown", "%"⟩ ∧
      (classifyWithOpenAIDatasetJaccard oC1 fmtW sC1 "apple banana").1 =
        .ok ⟨"A", "%"⟩ ∧
      classifyWithOpenAI oC1 fmtW sC1 "apple banana" ≠
        classifyWithOpenAIDatasetJaccard oC1 fmtW sC1 "apple banana" := by
  have hbest : openAIBest sC1 (([[1]] : List (List ℝ)).headD []) = ("A", 1) := by
    show bestMatchFold [("A", cosineSimilarity [1] [1])] = ("A", 1)
    rw [cosine_one_one]
    norm_num [bestMatchFold, bestStep]
  have h1 : classifyWithOpenAI oC1 fmtW sC1 "apple banana" =
      (.ok ⟨"unknown", "%"⟩, [.validate "apple banana", .embed ["apple banana"]]) := by
    unfold classifyWithOpenAI
    rw [if_neg (by decide), if_neg (by decide),
      show getBatchEmbeddings oC1 ["apple banana"] = Except.ok [[1]] from rfl]
    simp only []
    rw [hbest]
    rw [if_neg (show ¬(("A", (1 : ℝ)).2 < sC1.threshold) by
      norm_num [show sC1.threshold = (1 : ℝ) / 2 from rfl])]
    rw [show sC1.embeddings.find? (fun r => r.intent == ("A", (1 : ℝ)).1) =
      some ⟨"q w r t", "A", [1]⟩ from rfl]
    simp only []
    rw [if_pos (jaccard_lt_fifth (tokenSet "apple banana") (tokenSet "q w r t")
      (by decide) (by decide))]
    rfl
  have h2 : classifyWithOpenAIDatasetJaccard oC1 fmtW sC1 "apple banana" =
      (.ok ⟨"A", "%"⟩, [.validate "apple banana", .embed ["apple banana"]]) := by
    unfold classifyWithOpenAIDatasetJaccard
    rw [if_neg (by decide), if_neg (by decide),
      show getBatchEmbeddings oC1 ["apple banana"] = Except.ok [[1]] from rfl]
    simp only []
    rw [hbest]
    rw [if_neg (show ¬(("A", (1 : ℝ)).2 < sC1.threshold) by
      norm_num [show sC1.threshold = (1 : ℝ) / 2 from rfl])]
    rw [show sC1.dataset.find? (fun r => r.intent == ("A", (1 : ℝ)).1) =
      some ⟨"apple banana", "A"⟩ from rfl]
    simp only []
    rw [if_neg (jaccard_self_not_lt (tokenSet "apple banana") (by decide))]
    rfl
  refine ⟨by rw [h1], by rw [h2], fun heq => ?_⟩
  have hfst := congrArg (fun x => x.1) heq
  simp only [h1, h2] at hfst
  have h3 := Except.ok.inj hfst
  have h4 := congrArg ClassificationResult.intent h3
  exact absurd h4 (by decide)

/-- Environment for the amended-C1 witness. -/
noncomputable def oW1 : Oracles :=
  ⟨fun _ => .ok "valid", fun _ => .ok [[1]], fun _ _ => [1]⟩

/-- Embedding-mode state whose single stored record matches the query. -/
noncomputable def sW1 : ClassifierState :=
  ⟨true, 1 / 2, 50, [], [], [⟨"hello there", "greet", [1]⟩], []⟩

/-- C1 witness: the amended behaviour at a concrete input where the first
embeddings record with the winning intent has Jaccard `1` with the query, so
the winning intent is returned. -/
theorem C1_witness :
    classifyWithOpenAI oW1 fmtW sW1 "hello there" =
      (.ok ⟨"greet", "%"⟩, [.validate "hello there", .embed ["hello there"]]) := by
  have hbest : openAIBest sW1 (([[1]] : List (List ℝ)).headD []) = ("greet", 1) := by
    show bestMatchFold [("greet", cosineSimilarity [1] [1])] = ("greet", 1)
    rw [cosine_one_one]
    norm_num [bestMatchFold, bestStep]
  have H := C1_jaccard_first_embedding_record oW1 fmtW sW1 "hello there" [[1]]
    ⟨"hello there", "greet", [1]⟩ [] [] (by decide) rfl rfl
    (by rw [hbest]; norm_num [show sW1.threshold = (1 : ℝ) / 2 from rfl]) rfl
    (by rw [hbest]) (fun r hr => absurd hr (List.not_mem_nil r))
  rw [H, hbest]
  rw [if_neg (jaccard_self_not_lt (tokenSet "hello there") (by decide))]
  rfl

/-- C4 (amended): `removeIntent i` keeps exactly the dataset examples whose
intent differs from `i` and, in embedding mode, exactly the embedding
records whose intent differs from `i`; and in embedding mode a subsequent
`classify` of a query that is NOT already cached, whose remaining records
all score strictly below the (positive) threshold, and whose provider call
succeeds, returns intent `"unknown"`. (For a query that is already in the
cache, the stale cached intent is returned instead — the cache is never
invalidated on mutation.) -/
theorem C4_removeIntent (o : Oracles) (fmt : ℝ → String) (s : ClassifierState)
    (i q : String) (l : List (List ℝ))
    (hmode : s.useOpenAI = true)
    (hthr : 0 < s.threshold)
    (hcache : cacheGet (removeIntent s i).cache q = none)
    (hprov : getBatchEmbeddings o [q] = .ok l)
    (hlow : ∀ r ∈ s.embeddings, r.intent ≠ i →
      ∀ v, cosineSimilarity (l.headD []) r.vector = some v → v < s.threshold) :
    (∀ e : DataExample, e ∈ (removeIntent s i).dataset ↔
        e ∈ s.dataset ∧ e.intent ≠ i) ∧
      (∀ r : EmbeddingRecord, r ∈ (removeIntent s i).embeddings ↔
        r ∈ s.embeddings ∧ r.intent ≠ i) ∧
      ∃ conf : String, (classify o fmt (removeIntent s i) q).1 =
        .ok ⟨"unknown", conf⟩ := by
  have hemb : (removeIntent s i).embeddings =
      s.embeddings.filter fun r => r.intent != i := by
    simp [removeIntent, hmode]
  refine ⟨fun e => ?_, fun r => ?_, ?_⟩
  · simp [removeIntent, List.mem_filter]
  · rw [hemb]
    simp [List.mem_filter]
  · have hcw : ∃ conf calls, classifyWithOpenAI o fmt (removeIntent s i) q =
        (.ok ⟨"unknown", conf⟩, calls) := by
      by_cases hvow : hasVowel q = false
      · refine ⟨"0%", [], ?_⟩
        unfold classifyWithOpenAI
        rw [if_pos hvow]
      · by_cases hval : isValidQueryOpenAI o q = false
        · refine ⟨"Garbage Detected", [.validate q], ?_⟩
          unfold classifyWithOpenAI
          rw [if_neg hvow, if_pos hval]
        · have hbestlt : (openAIBest (removeIntent s i) (l.headD [])).2 <
              (removeIntent s i).threshold := by
            show (openAIBest (removeIntent s i) (l.headD [])).2 < s.threshold
            unfold openAIBest bestMatchFold
            refine foldl_bestStep_lt _ s.threshold ("unknown", 0) hthr ?_
            intro p hp v hv
            obtain ⟨r, hr, rfl⟩ := List.mem_map.mp hp
            rw [hemb] at hr
            have hr2 := List.mem_filter.mp hr
            exact hlow r hr2.1 (by simpa using hr2.2) v hv
          refine ⟨fmt ((openAIBest (removeIntent s i) (l.headD [])).2 * 100) ++ "%",
            [.validate q, .embed [q]], ?_⟩
          unfold classifyWithOpenAI
          rw [if_neg hvow, if_neg hval, hprov]
          simp only []
          rw [if_pos hbestlt]
    obtain ⟨conf, calls, hcw⟩ := hcw
    refine ⟨conf, ?_⟩
    have hmode2 : (removeIntent s i).useOpenAI = true := hmode
    simp [classify, hcache, hmode2, hcw]

/-- Environment for the stale-cache scenario. -/
noncomputable def oCE4 : Oracles :=
  ⟨fun _ => .ok "valid", fun _ => .ok [[1]], fun _ _ => [1]⟩

/-- Embedding-mode state with a single `"gym"` example. -/
noncomputable def sCE4 : ClassifierState :=
  ⟨true, 1 / 2, 50, [], [⟨"go gym", "gym"⟩], [⟨"go gym", "gym", [1]⟩], ["go gym"]⟩

/-- C4 counterexample: the query `"go gym"` matches only intent `"gym"` and
is classified as such; after `removeIntent "gym"` the same `classify` call
STILL returns `"gym"` from the never-invalidated cache, not `"unknown"` as
the claim states. -/
theorem C4_counterexample :
    (classify oCE4 fmtW sCE4 "go gym").1 = .ok ⟨"gym", "%"⟩ ∧
      (classify oCE4 fmtW
        (removeIntent (classify oCE4 fmtW sCE4 "go gym").2.1 "gym") "go gym").1 =
        .ok ⟨"gym", "%"⟩ ∧
      ("gym" : String) ≠ "unknown" := by
  have hbest : openAIBest sCE4 (([[1]] : List (List ℝ)).headD []) = ("gym", 1) := by
    show bestMatchFold [("gym", cosineSimilarity [1] [1])] = ("gym", 1)
    rw [cosine_one_one]
    norm_num [bestMatchFold, bestStep]
  have hcw : classifyWithOpenAI oCE4 fmtW sCE4 "go gym" =
      (.ok ⟨"gym", "%"⟩, [.validate "go gym", .embed ["go gym"]]) := by
    unfold classifyWithOpenAI
    rw [if_neg (by decide), if_neg (by decide),
      show getBatchEmbeddings oCE4 ["go gym"] = Except.ok [[1]] from rfl]
    simp only []
    rw [hbest]
    rw [if_neg (show ¬(("gym", (1 : ℝ)).2 < sCE4.threshold) by
      norm_num [show sCE4.threshold = (1 : ℝ) / 2 from rfl])]
    rw [show sCE4.embeddings.find? (fun r => r.intent == ("gym", (1 : ℝ)).1) =
      some ⟨"go gym", "gym", [1]⟩ from rfl]
    simp only []
    rw [if_neg (jaccard_self_not_lt (tokenSet "go gym") (by decide))]
    rfl
  have hfirst : classify oCE4 fmtW sCE4 "go gym" =
      (.ok ⟨"gym", "%"⟩,
        { sCE4 with cache := cacheSet sCE4.cache "go gym" ⟨"gym", "%"⟩ },
        [.validate "go gym", .embed ["go gym"]]) := by
    have hnone : cacheGet sCE4.cache "go gym" = none := rfl
    have hopen : sCE4.useOpenAI = true := rfl
    simp only [classify, hnone, hopen, if_true, hcw]
  refine ⟨by rw [hfirst], ?_, by decide⟩
  rw [hfirst]
  simp only []
  exact congrArg (fun x => x.1)
    (classify_cache_hit oCE4 fmtW
      (removeIntent { sCE4 with cache := cacheSet sCE4.cache "go gym" ⟨"gym", "%"⟩ }
        "gym")
      "go gym" ⟨"gym", "%"⟩ rfl)

/-- Environment for the removeIntent witness. -/
noncomputable def oW4 : Oracles :=
  ⟨fun _ => .ok "valid", fun _ => .ok [[1]], fun _ _ => [1]⟩

/-- Embedding-mode state whose only records carry intent `"A"`. -/
noncomputable def sW4 : ClassifierState :=
  ⟨true, 1 / 2, 50, [], [⟨"t1", "A"⟩], [⟨"t1", "A", [1]⟩], ["t1"]⟩

/-- C4 witness: removing intent `"A"` empties the dataset and the store of
`"A"` records, and an uncached query afterwards classifies as `"unknown"`. -/
theorem C4_witness :
    (∀ e : DataExample, e ∈ (removeIntent sW4 "A").dataset ↔
        e ∈ sW4.dataset ∧ e.intent ≠ "A") ∧
      (∀ r : EmbeddingRecord, r ∈ (removeIntent sW4 "A").embeddings ↔
        r ∈ sW4.embeddings ∧ r.intent ≠ "A") ∧
      ∃ conf : String, (classify oW4 fmtW (removeIntent sW4 "A") "hello").1 =
        .ok ⟨"unknown", conf⟩ := by
  refine C4_removeIntent oW4 fmtW sW4 "A" "hello" [[1]] rfl ?_ rfl rfl ?_
  · rw [show sW4.threshold = (1 : ℝ) / 2 from rfl]
    norm_num
  · intro r hr hri v hv
    rcases List.mem_singleton.mp hr with rfl
    exact absurd rfl hri
